import Mathlib

/-!
Verification development for the PyCircleSim agent-based simulation framework.

Each section embeds one part of the repository's Python source as executable
Lean definitions and proves/refutes the corresponding specification claims:

* `scripts/rings.pyx` — configuration loading/validation, CLI overrides,
  agent-distribution normalisation, the builder's per-profile allocation,
  and the iteration loop of `RingsSimulation`.
* `src/contract_generator/templates/client.py.j2` and
  `generic_client.py.j2` — the generated execution-client methods.
* `src/contract_generator/templates/handler.py.j2` and the generated
  implementation template — action handlers and parameter resolution.
* `src/framework/data/duckdb/views/active_trusts.view.sql` — the
  active-trust view.
-/

/-! ## Builder allocation (`RingsSimulation._build_initial_network`)

The Python loop is

```text
remaining = network_size
for profile, weight in agent_distribution.items():
    if profile == list(agent_distribution.keys())[-1]:
        distribution[profile] = remaining
    else:
        count = int(weight * network_size)
        distribution[profile] = count
        remaining -= count
```

Profiles are dict keys, hence pairwise distinct, so the equality test with
the final key fires exactly at the last element of the iteration order.
We embed the allocation as a recursion over the list of weights.
-/

/-- Python `int()` applied to a rational: truncation toward zero. -/
def pyInt (q : ℚ) : ℤ := if 0 ≤ q then ⌊q⌋ else ⌈q⌉

/-- The allocation loop of `_build_initial_network`: every profile except the
last receives `int(weight * N)` agents and the last receives whatever is left
of `remaining`. -/
def allocLoop (N : ℚ) : ℤ → List ℚ → List ℤ
  | _, [] => []
  | remaining, [_] => [remaining]
  | remaining, w :: w2 :: ws =>
      pyInt (w * N) :: allocLoop N (remaining - pyInt (w * N)) (w2 :: ws)

/-- Per-profile agent counts computed by the builder for target size `N` and
profile weights `ws` (in dict iteration order). -/
def buildDistribution (N : ℕ) (ws : List ℚ) : List ℤ :=
  allocLoop (N : ℚ) (N : ℤ) ws

theorem pyInt_eq_floor {q : ℚ} (h : 0 ≤ q) : pyInt q = ⌊q⌋ := by
  simp [pyInt, h]

theorem allocLoop_sum (N : ℚ) :
    ∀ (ws : List ℚ) (r : ℤ), ws ≠ [] → (allocLoop N r ws).sum = r := by
  intro ws
  induction ws with
  | nil => intro r h; exact absurd rfl h
  | cons w ws ih =>
      intro r _
      cases ws with
      | nil => simp [allocLoop]
      | cons w2 ws' =>
          have h2 : (allocLoop N (r - pyInt (w * N)) (w2 :: ws')).sum
              = r - pyInt (w * N) := ih (r - pyInt (w * N)) (by simp)
          simp [allocLoop, h2]

theorem allocLoop_eq_floors (N : ℚ) (hN : 0 ≤ N) :
    ∀ (ws : List ℚ) (r : ℤ), ws ≠ [] → (∀ w ∈ ws, 0 ≤ w) →
      allocLoop N r ws =
        (ws.dropLast.map (fun w => ⌊w * N⌋)) ++
          [r - ((ws.dropLast.map (fun w => ⌊w * N⌋)).sum)] := by
  intro ws
  induction ws with
  | nil => intro r h _; exact absurd rfl h
  | cons w ws ih =>
      intro r _ hnn
      cases ws with
      | nil => simp [allocLoop]
      | cons w2 ws' =>
          have hw : 0 ≤ w := hnn w (by simp)
          have hfl : pyInt (w * N) = ⌊w * N⌋ :=
            pyInt_eq_floor (mul_nonneg hw hN)
          have ihh := ih (r - pyInt (w * N)) (by simp)
            (fun x hx => hnn x (List.mem_cons_of_mem _ hx))
          have hstep : allocLoop N r (w :: w2 :: ws')
              = pyInt (w * N) :: allocLoop N (r - pyInt (w * N)) (w2 :: ws') := rfl
          rw [hstep, ihh, hfl]
          simp [List.dropLast_cons_of_ne_nil (List.cons_ne_nil w2 ws'), sub_sub]

/-- C1: for every target network size and every non-empty profile
distribution (nonnegative weights), the builder's per-profile counts sum
exactly to the target size; every profile except the last in iteration order
receives `⌊weight * target_size⌋` agents and the last receives all remaining
agents. -/
theorem c1_builder_allocation (N : ℕ) (ws : List ℚ)
    (hne : ws ≠ []) (hnn : ∀ w ∈ ws, 0 ≤ w) :
    (buildDistribution N ws).sum = (N : ℤ) ∧
    buildDistribution N ws =
      (ws.dropLast.map (fun w => ⌊w * (N : ℚ)⌋)) ++
        [(N : ℤ) - ((ws.dropLast.map (fun w => ⌊w * (N : ℚ)⌋)).sum)] := by
  refine ⟨allocLoop_sum (N : ℚ) ws (N : ℤ) hne, ?_⟩
  exact allocLoop_eq_floors (N : ℚ) (by positivity) ws (N : ℤ) hne hnn

/-- Witness for C1 at target size 20 and weights `[1/2, 1/4, 1/4]`. -/
theorem c1_builder_allocation_witness :
    (buildDistribution 20 [1/2, 1/4, 1/4]).sum = 20 ∧
    buildDistribution 20 [1/2, 1/4, 1/4] = [10, 5, 5] :=
  ⟨(c1_builder_allocation 20 [1/2, 1/4, 1/4] (by simp)
      (by intro w hw; fin_cases hw <;> norm_num)).1,
   by norm_num [buildDistribution, allocLoop, pyInt]⟩

/-! ## Iteration loop (`RingsSimulation._run_iterations` / `run`)

```text
for i in range(iterations):
    if not advance_time(blocks_per_iteration, block_time):
        return False
    stats = evolve_network(i + 1)
    iteration_stats.append(stats)
return True
```

`advance` is the backend's time-advance result at loop index `i` and
`evolve` produces the statistics object returned by `evolve_network` for a
1-based iteration number.
-/

/-- The loop body of `_run_iterations`, starting at loop index `i` with `k`
iterations left; returns the statistics appended by the remaining iterations
together with the boolean result of the method. -/
def runFrom {σ : Type} (advance : ℕ → Bool) (evolve : ℕ → σ) : ℕ → ℕ → List σ × Bool
  | _, 0 => ([], true)
  | i, k + 1 =>
      if advance i then
        let rest := runFrom advance evolve (i + 1) k
        (evolve (i + 1) :: rest.1, rest.2)
      else ([], false)

/-- Embedding of `_run_iterations`: run `n` loop iterations starting at index 0. -/
def runIterations {σ : Type} (advance : ℕ → Bool) (evolve : ℕ → σ) (n : ℕ) :
    List σ × Bool :=
  runFrom advance evolve 0 n

/-- Embedding of `RingsSimulation.run`: build the initial network, then run the
iterations; a failure of either phase is reported as `false`. -/
def runSimulation {σ : Type} (buildOk : Bool) (advance : ℕ → Bool)
    (evolve : ℕ → σ) (n : ℕ) : List σ × Bool :=
  if buildOk then runIterations advance evolve n else ([], false)

theorem runFrom_fail {σ : Type} (advance : ℕ → Bool) (evolve : ℕ → σ) :
    ∀ (k s i : ℕ), s ≤ i → i < s + k → advance i = false →
      (∀ j, s ≤ j → j < i → advance j = true) →
      runFrom advance evolve s k = ((List.range' (s + 1) (i - s)).map evolve, false) := by
  intro k
  induction k with
  | zero => intro s i hsi hlt _ _; omega
  | succ k ih =>
      intro s i hsi hlt hfail hok
      by_cases hsEq : s = i
      · subst hsEq
        simp [runFrom, hfail]
      · have hslt : s < i := lt_of_le_of_ne hsi hsEq
        have hadv : advance s = true := hok s le_rfl hslt
        have ihh := ih (s + 1) i hslt (by omega) hfail
          (fun j hj1 hj2 => hok j (by omega) hj2)
        have hrange : List.range' (s + 1) (i - s)
            = (s + 1) :: List.range' (s + 2) (i - (s + 1)) := by
          have h1 : i - s = (i - (s + 1)) + 1 := by omega
          rw [h1, List.range'_succ]
        simp [runFrom, hadv, ihh, hrange]

/-- C2: if `advance_time` first returns `false` at loop iteration `i`, then
`evolve_network` is invoked exactly for the iterations before `i` (so never
for `i` or later — the result is unchanged under any reinterpretation of
`evolve_network` agreeing on those iterations), the statistics accumulated
for prior iterations are preserved unchanged, and `run` reports failure. -/
theorem c2_advance_failure_stops_run {σ : Type} (advance : ℕ → Bool)
    (evolve evolveAlt : ℕ → σ) (n i : ℕ)
    (hi : i < n) (hfail : advance i = false)
    (hok : ∀ j, j < i → advance j = true)
    (hagree : ∀ j, j < i → evolve (j + 1) = evolveAlt (j + 1)) :
    runIterations advance evolve n = ((List.range i).map (fun j => evolve (j + 1)), false)
    ∧ (∀ b, (runSimulation b advance evolve n).2 = false)
    ∧ runIterations advance evolve n = runIterations advance evolveAlt n := by
  have key : ∀ (f : ℕ → σ), runIterations advance f n
      = ((List.range' 1 i).map f, false) := by
    intro f
    have := runFrom_fail advance f n 0 i (Nat.zero_le i) (by omega) hfail
      (fun j _ hj => hok j hj)
    simpa [runIterations] using this
  have hconv : ∀ (f : ℕ → σ), (List.range' 1 i).map f
      = (List.range i).map (fun j => f (j + 1)) := by
    intro f
    rw [List.range'_eq_map_range]
    simp [Function.comp, Nat.add_comm]
  refine ⟨?_, ?_, ?_⟩
  · rw [key evolve, hconv]
  · intro b
    cases b <;> simp [runSimulation, key evolve]
  · rw [key evolve, key evolveAlt, hconv, hconv]
    have : ∀ j ∈ List.range i, evolve (j + 1) = evolveAlt (j + 1) := by
      intro j hj
      exact hagree j (List.mem_range.mp hj)
    exact congrArg (fun l => (l, false)) (List.map_congr_left this)

/-- Witness for C2: time-advance succeeds at iterations 0 and 1 and fails at
iteration 2 of a 5-iteration run. -/
theorem c2_advance_failure_stops_run_witness :
    runIterations (fun j => decide (j < 2)) (fun j => j) 5 = ([1, 2], false)
    ∧ (runSimulation true (fun j => decide (j < 2)) (fun j => j) 5).2 = false :=
  ⟨by
    have h := c2_advance_failure_stops_run (fun j => decide (j < 2))
      (fun j => j) (fun j => j) 5 2 (by decide) (by decide)
      (by intro j hj; simp; omega) (fun j _ => rfl)
    simpa using h.1,
   by
    have h := c2_advance_failure_stops_run (fun j => decide (j < 2))
      (fun j => j) (fun j => j) 5 2 (by decide) (by decide)
      (by intro j hj; simp; omega) (fun j _ => rfl)
    exact h.2.1 true⟩

/-! ## Configuration (`SimulationConfig` in `scripts/rings.pyx`)

A loaded YAML configuration is a Python dict; we embed it as an association
list with first-occurrence lookup and in-place update (Python dicts keep the
position of an existing key on assignment and append new keys). -/

/-- A Python value as it appears in the configuration dicts. -/
inductive PyVal : Type
  | vNone : PyVal
  | vInt : ℤ → PyVal
  | vRat : ℚ → PyVal
  | vStr : String → PyVal
deriving DecidableEq

/-- A Python dict with string keys. -/
abbrev PyDict (α : Type) : Type := List (String × α)

/-- Dict lookup (`d[k]` / `k in d`). -/
def pyLookup {α : Type} : PyDict α → String → Option α
  | [], _ => none
  | (k', v) :: rest, k => if k' = k then some v else pyLookup rest k

/-- Dict assignment `d[k] = v`: update the first occurrence of `k` in place,
or append the new key. -/
def pySet {α : Type} : PyDict α → String → α → PyDict α
  | [], k, v => [(k, v)]
  | (k', v') :: rest, k, v =>
      if k' = k then (k, v) :: rest else (k', v') :: pySet rest k v

theorem pyLookup_pySet {α : Type} (d : PyDict α) (k k' : String) (v : α) :
    pyLookup (pySet d k v) k' = if k = k' then some v else pyLookup d k' := by
  induction d with
  | nil => by_cases h : k = k' <;> simp [pySet, pyLookup, h]
  | cons hd tl ih =>
      obtain ⟨k0, v0⟩ := hd
      by_cases h0 : k0 = k
      · subst h0
        by_cases h1 : k0 = k' <;> simp [pySet, pyLookup, h1]
      · by_cases h1 : k0 = k'
        · subst h1
          have : ¬ k = k0 := fun h => h0 h.symm
          simp [pySet, pyLookup, h0, this]
        · simp [pySet, pyLookup, h0, h1, ih]

/-- Step of `_set_default_values`: insert a default only when the key is absent. -/
def setDefaultKey (d : PyDict PyVal) (k : String) (v : PyVal) : PyDict PyVal :=
  match pyLookup d k with
  | some _ => d
  | none => pySet d k v

/-- Embedding of `SimulationConfig._set_default_values` on the rings config. -/
def setDefaultValues (d : PyDict PyVal) : PyDict PyVal :=
  setDefaultKey (setDefaultKey (setDefaultKey (setDefaultKey (setDefaultKey
    (setDefaultKey d "size" (PyVal.vInt 20))
    "trust_density" (PyVal.vRat (1/10)))
    "batch_size" (PyVal.vInt 10))
    "iterations" (PyVal.vInt 10))
    "blocks_per_iteration" (PyVal.vInt 100))
    "block_time" (PyVal.vInt 5)

/-- The keys `_apply_cli_params` may override, in loop order. -/
def cliKeys : List String :=
  ["size", "trust_density", "batch_size", "iterations",
   "blocks_per_iteration", "block_time"]

/-- One step of `_apply_cli_params`: `if params.get(key) is not None:
rings_config[key] = params[key]`. -/
def applyCliParam (cfg params : PyDict PyVal) (k : String) : PyDict PyVal :=
  match pyLookup params k with
  | some v => if v = PyVal.vNone then cfg else pySet cfg k v
  | none => cfg

/-- Embedding of `SimulationConfig._apply_cli_params`. -/
def applyCliParams (cfg params : PyDict PyVal) : PyDict PyVal :=
  cliKeys.foldl (fun c k => applyCliParam c params k) cfg

/-- The required network parameters checked by `_validate_config`. -/
def requiredNetworkParams : List String :=
  ["size", "trust_density", "batch_size", "iterations"]

/-- Embedding of `SimulationConfig._validate_config`: raise on the first missing required
network parameter, then require the `profiles` section of the agent config. -/
def validateConfig (rings agent : PyDict PyVal) : Except String Unit :=
  match requiredNetworkParams.find? (fun p => (pyLookup rings p).isNone) with
  | some p => Except.error ("Missing required network parameter: " ++ p)
  | none =>
      if (pyLookup agent "profiles").isNone then
        Except.error "Agent configuration must define agent profiles"
      else Except.ok ()

/-- Embedding of `SimulationConfig.__init__` after the two YAML loads: set defaults, apply
CLI overrides when given, then validate; an exception is an `error`. -/
def mkSimulationConfig (rings agent : PyDict PyVal)
    (cli : Option (PyDict PyVal)) : Except String (PyDict PyVal × PyDict PyVal) :=
  let r0 := setDefaultValues rings
  let r1 := match cli with
    | some p => applyCliParams r0 p
    | none => r0
  match validateConfig r1 agent with
  | Except.ok _ => Except.ok (r1, agent)
  | Except.error e => Except.error e

theorem pyLookup_setDefaultKey_isSome (d : PyDict PyVal) (k : String) (v : PyVal) :
    (pyLookup (setDefaultKey d k v) k).isSome := by
  unfold setDefaultKey
  cases h : pyLookup d k with
  | some w => simp [h]
  | none => simp [pyLookup_pySet]

theorem setDefaultKey_preserves_isSome (d : PyDict PyVal) (k k' : String)
    (v : PyVal) (h : (pyLookup d k').isSome) :
    (pyLookup (setDefaultKey d k v) k').isSome := by
  unfold setDefaultKey
  cases hx : pyLookup d k with
  | some w => simpa using h
  | none =>
      rw [pyLookup_pySet]
      by_cases hk : k = k' <;> simp [hk, h]

theorem setDefaultValues_has_required (d : PyDict PyVal) :
    ∀ k ∈ requiredNetworkParams, (pyLookup (setDefaultValues d) k).isSome := by
  intro k hk
  have hk' : k = "size" ∨ k = "trust_density" ∨ k = "batch_size"
      ∨ k = "iterations" := by
    simpa [requiredNetworkParams] using hk
  unfold setDefaultValues
  rcases hk' with h | h | h | h <;> subst h <;>
    repeat
      first
      | exact pyLookup_setDefaultKey_isSome _ _ _
      | apply setDefaultKey_preserves_isSome

theorem applyCliParam_preserves_isSome (cfg params : PyDict PyVal)
    (k k' : String) (h : (pyLookup cfg k').isSome) :
    (pyLookup (applyCliParam cfg params k) k').isSome := by
  unfold applyCliParam
  cases hp : pyLookup params k with
  | none => simpa using h
  | some v =>
      show (pyLookup (if v = PyVal.vNone then cfg else pySet cfg k v) k').isSome
      by_cases hv : v = PyVal.vNone
      · simpa [hv] using h
      · rw [if_neg hv, pyLookup_pySet]
        by_cases hk : k = k' <;> simp [hk, h]

theorem applyCliParams_preserves_isSome (cfg params : PyDict PyVal)
    (k' : String) (h : (pyLookup cfg k').isSome) :
    (pyLookup (applyCliParams cfg params) k').isSome := by
  unfold applyCliParams
  generalize cliKeys = ks
  induction ks generalizing cfg with
  | nil => simpa using h
  | cons k0 ks ih =>
      simp only [List.foldl_cons]
      exact ih _ (applyCliParam_preserves_isSome cfg params k0 k' h)

/-- The rings configuration as it stands when `_validate_config` runs:
defaults applied, then CLI overrides when present. -/
def ringsAfterCli (rings : PyDict PyVal) (cli : Option (PyDict PyVal)) :
    PyDict PyVal :=
  match cli with
  | some p => applyCliParams (setDefaultValues rings) p
  | none => setDefaultValues rings

theorem mkSimulationConfig_eq (rings agent : PyDict PyVal)
    (cli : Option (PyDict PyVal)) :
    mkSimulationConfig rings agent cli
      = match validateConfig (ringsAfterCli rings cli) agent with
        | Except.ok _ => Except.ok (ringsAfterCli rings cli, agent)
        | Except.error e => Except.error e := by
  cases cli <;> rfl

/-- The rings config reaching `_validate_config` always contains every
required network parameter, because `_set_default_values` ran first and CLI
overrides never delete keys. -/
theorem validateConfig_find_none (rings : PyDict PyVal)
    (cli : Option (PyDict PyVal)) :
    requiredNetworkParams.find?
      (fun p => (pyLookup (ringsAfterCli rings cli) p).isNone) = none := by
  rw [List.find?_eq_none]
  intro p hp
  have hsome : (pyLookup (ringsAfterCli rings cli) p).isSome := by
    cases cli with
    | none => exact setDefaultValues_has_required rings p hp
    | some p' =>
        exact applyCliParams_preserves_isSome _ p' p
          (setDefaultValues_has_required rings p hp)
  cases h : pyLookup (ringsAfterCli rings cli) p
  · rw [h] at hsome; simp at hsome
  · simp

/-- C3 (counterexample): loading a rings configuration with the required
network parameter `size` absent does NOT make construction raise — the
defaults fill it in and construction succeeds. -/
theorem c3_missing_size_constructs_ok :
    pyLookup ([] : PyDict PyVal) "size" = none
    ∧ (mkSimulationConfig [] [("profiles", PyVal.vInt 0)] none).isOk = true := by
  constructor
  · rfl
  · rfl

/-- C3 (amended): construction raises a configuration error iff the agent
configuration lacks the `profiles` section; network parameters absent from
the loaded configuration are filled with defaults before validation and
never cause an error, and construction succeeds in every other case. -/
theorem c3_construction_raises_iff_no_profiles (rings agent : PyDict PyVal)
    (cli : Option (PyDict PyVal)) :
    (mkSimulationConfig rings agent cli).isOk
      = (pyLookup agent "profiles").isSome := by
  rw [mkSimulationConfig_eq]
  unfold validateConfig
  rw [validateConfig_find_none rings cli]
  cases h : pyLookup agent "profiles" <;>
    simp [h, Except.isOk, Except.toBool]

theorem applyCliParam_lookup_ne (cfg params : PyDict PyVal) (k k' : String)
    (h : k ≠ k') :
    pyLookup (applyCliParam cfg params k) k' = pyLookup cfg k' := by
  unfold applyCliParam
  cases hp : pyLookup params k with
  | none => rfl
  | some v =>
      show pyLookup (if v = PyVal.vNone then cfg else pySet cfg k v) k'
        = pyLookup cfg k'
      by_cases hv : v = PyVal.vNone
      · simp [hv]
      · rw [if_neg hv, pyLookup_pySet, if_neg h]

theorem applyCliParam_id_of_none (cfg params : PyDict PyVal) (k : String)
    (h : pyLookup params k = none ∨ pyLookup params k = some PyVal.vNone) :
    applyCliParam cfg params k = cfg := by
  unfold applyCliParam
  rcases h with h | h <;> simp [h]

theorem applyCliParam_lookup_self (cfg params : PyDict PyVal) (k : String)
    (v : PyVal) (hv : pyLookup params k = some v) (hne : v ≠ PyVal.vNone) :
    pyLookup (applyCliParam cfg params k) k = some v := by
  unfold applyCliParam
  rw [hv]
  show pyLookup (if v = PyVal.vNone then cfg else pySet cfg k v) k = some v
  rw [if_neg hne, pyLookup_pySet, if_pos rfl]

theorem foldl_applyCliParam_not_mem (params : PyDict PyVal) (k : String) :
    ∀ (ks : List String) (cfg : PyDict PyVal), k ∉ ks →
      pyLookup (ks.foldl (fun c k' => applyCliParam c params k') cfg) k
        = pyLookup cfg k := by
  intro ks
  induction ks with
  | nil => intro cfg _; rfl
  | cons k0 ks ih =>
      intro cfg hk
      have hk0 : k0 ≠ k := fun h => hk (h ▸ List.mem_cons_self k0 ks)
      have hks : k ∉ ks := fun h => hk (List.mem_cons_of_mem k0 h)
      rw [List.foldl_cons, ih _ hks, applyCliParam_lookup_ne cfg params k0 k hk0]

theorem foldl_applyCliParam_get_none (params : PyDict PyVal) (k : String)
    (h : pyLookup params k = none ∨ pyLookup params k = some PyVal.vNone) :
    ∀ (ks : List String) (cfg : PyDict PyVal),
      pyLookup (ks.foldl (fun c k' => applyCliParam c params k') cfg) k
        = pyLookup cfg k := by
  intro ks
  induction ks with
  | nil => intro cfg; rfl
  | cons k0 ks ih =>
      intro cfg
      rw [List.foldl_cons, ih]
      by_cases hk0 : k0 = k
      · subst hk0
        rw [applyCliParam_id_of_none cfg params k0 h]
      · exact applyCliParam_lookup_ne cfg params k0 k hk0

/-- C9: applying the CLI overrides mutates at most the six designated keys,
and of those only the ones whose supplied value is not `None`; every other
entry of the loaded configuration is unchanged, and an overridden key ends
up holding exactly the supplied value. -/
theorem c9_cli_override_frame (cfg params : PyDict PyVal) (k : String) :
    (k ∉ cliKeys →
      pyLookup (applyCliParams cfg params) k = pyLookup cfg k)
    ∧ ((pyLookup params k = none ∨ pyLookup params k = some PyVal.vNone) →
      pyLookup (applyCliParams cfg params) k = pyLookup cfg k)
    ∧ (∀ v, k ∈ cliKeys → pyLookup params k = some v → v ≠ PyVal.vNone →
      pyLookup (applyCliParams cfg params) k = some v) := by
  refine ⟨?_, ?_, ?_⟩
  · intro hk
    exact foldl_applyCliParam_not_mem params k cliKeys cfg hk
  · intro h
    exact foldl_applyCliParam_get_none params k h cliKeys cfg
  · intro v hk hv hne
    obtain ⟨l1, l2, hsplit⟩ := List.append_of_mem hk
    have hnodup : cliKeys.Nodup := by decide
    have hkl2 : k ∉ l2 := by
      rw [hsplit] at hnodup
      have := (List.nodup_cons.mp (hnodup.of_append_right)).1
      exact this
    unfold applyCliParams
    rw [hsplit, List.foldl_append, List.foldl_cons,
      foldl_applyCliParam_not_mem params k l2 _ hkl2,
      applyCliParam_lookup_self _ params k v hv hne]

/-- Witness for C9: overriding `size` with 42 changes `size`, leaves the
untouched key `db_path` and the `None`-valued key `iterations` unchanged. -/
theorem c9_cli_override_frame_witness :
    pyLookup (applyCliParams
        [("size", PyVal.vInt 20), ("db_path", PyVal.vStr "x.duckdb"),
         ("iterations", PyVal.vInt 10)]
        [("size", PyVal.vInt 42), ("iterations", PyVal.vNone)])
      "db_path" = some (PyVal.vStr "x.duckdb")
    ∧ pyLookup (applyCliParams
        [("size", PyVal.vInt 20), ("db_path", PyVal.vStr "x.duckdb"),
         ("iterations", PyVal.vInt 10)]
        [("size", PyVal.vInt 42), ("iterations", PyVal.vNone)])
      "iterations" = some (PyVal.vInt 10)
    ∧ pyLookup (applyCliParams
        [("size", PyVal.vInt 20), ("db_path", PyVal.vStr "x.duckdb"),
         ("iterations", PyVal.vInt 10)]
        [("size", PyVal.vInt 42), ("iterations", PyVal.vNone)])
      "size" = some (PyVal.vInt 42) := by
  refine ⟨?_, ?_, ?_⟩
  · exact (c9_cli_override_frame _ _ "db_path").1 (by decide)
  · exact (c9_cli_override_frame _ _ "iterations").2.1 (Or.inr (by decide))
  · exact (c9_cli_override_frame _ _ "size").2.2 (PyVal.vInt 42)
      (by decide) (by decide) (by decide)

/-! ## `SimulationConfig.agent_distribution`

```text
raw_dist = self.agent_config.get('agent_distribution', {})
if not raw_dist:
    raw_dist = {'honest_user': 10, 'group_creator': 1,
                'sybil_attacker': 2, 'trust_hub': 5}
total = sum(raw_dist.values())
return {k: v / total for k, v in raw_dist.items()}
```
-/

/-- The built-in default agent distribution. -/
def defaultAgentDistribution : List (String × ℚ) :=
  [("honest_user", 10), ("group_creator", 1), ("sybil_attacker", 2),
   ("trust_hub", 5)]

/-- The `agent_distribution` property for a raw distribution `raw` taken from
the agent config (empty when the config supplies none). -/
def agentDistribution (raw : List (String × ℚ)) : List (String × ℚ) :=
  let d := if raw.isEmpty then defaultAgentDistribution else raw
  d.map (fun kv => (kv.1, kv.2 / (d.map Prod.snd).sum))

theorem normalizedSum (d : List (String × ℚ))
    (h : (d.map Prod.snd).sum ≠ 0) :
    ((d.map (fun kv => (kv.1, kv.2 / (d.map Prod.snd).sum))).map Prod.snd).sum
      = 1 := by
  rw [List.map_map]
  have hfun : (Prod.snd ∘ fun kv : String × ℚ =>
        (kv.1, kv.2 / (d.map Prod.snd).sum))
      = fun kv : String × ℚ => kv.2 * ((d.map Prod.snd).sum)⁻¹ := by
    funext kv
    simp [div_eq_mul_inv]
  rw [hfun, List.sum_map_mul_right, mul_inv_cancel₀ h]

/-- C8: for a non-empty configured distribution with positive total weight,
`agent_distribution` divides each raw weight by the total (so the exposed
weights sum to 1); with no configured distribution the built-in default is
normalized instead. -/
theorem c8_agent_distribution_normalized (raw : List (String × ℚ))
    (hne : raw ≠ []) (hpos : 0 < (raw.map Prod.snd).sum) :
    agentDistribution raw
      = raw.map (fun kv => (kv.1, kv.2 / (raw.map Prod.snd).sum))
    ∧ ((agentDistribution raw).map Prod.snd).sum = 1
    ∧ agentDistribution []
      = defaultAgentDistribution.map (fun kv => (kv.1, kv.2 / 18))
    ∧ ((agentDistribution []).map Prod.snd).sum = 1 := by
  have hraw : raw.isEmpty = false := by
    cases raw with
    | nil => exact absurd rfl hne
    | cons a l => rfl
  have heq : agentDistribution raw
      = raw.map (fun kv => (kv.1, kv.2 / (raw.map Prod.snd).sum)) := by
    simp [agentDistribution, hraw]
  have hdefaultSum : ((defaultAgentDistribution.map Prod.snd).sum : ℚ) = 18 := by
    norm_num [defaultAgentDistribution]
  refine ⟨heq, ?_, ?_, ?_⟩
  · rw [heq]
    exact normalizedSum raw (ne_of_gt hpos)
  · simp only [agentDistribution, List.isEmpty_nil, if_pos]
    rw [hdefaultSum]
  · simp only [agentDistribution, List.isEmpty_nil, if_pos]
    rw [hdefaultSum]
    norm_num [defaultAgentDistribution]

/-- Witness for C8 at the raw distribution `{a: 1, b: 3}`. -/
theorem c8_agent_distribution_normalized_witness :
    agentDistribution [("a", 1), ("b", 3)]
      = [("a", (1 : ℚ) / 4), ("b", (3 : ℚ) / 4)]
    ∧ ((agentDistribution [("a", 1), ("b", 3)]).map Prod.snd).sum = 1 := by
  have h := c8_agent_distribution_normalized [("a", 1), ("b", 3)]
    (by simp) (by norm_num)
  refine ⟨?_, h.2.1⟩
  rw [h.1]
  norm_num

/-! ## Generated execution clients (`client.py.j2`, `generic_client.py.j2`)

A non-view method of a generated client runs

```text
try:
    tx = self.contract.f(..., sender=sender, value=value)
    success = bool(tx and tx.status == 1)
    if success:
        if self.collector: self.collector.record_transaction_events(tx, context)
        if context and context.simulation:
            context.simulation.update_state_from_transaction(tx, context)
    return success
except Exception:
    return False
```

The submission result is embedded as `Except err (Option TxReceipt)`: an
`error` is a raised exception, `ok none` a falsy transaction object, and
`ok (some tx)` a transaction with a status field. The observable side
effects (collector event recording, simulation state update) are embedded as
lists in a `ClientState`. -/

/-- A transaction receipt as seen by the generated client. -/
structure TxReceipt where
  status : ℕ
deriving DecidableEq

/-- The externally observable state touched by a client call: events recorded
through the collector and state updates applied to the simulation. -/
structure ClientState where
  recordedEvents : List TxReceipt
  simUpdates : List TxReceipt
deriving DecidableEq

/-- Whether the submission outcome counts as a success:
`bool(tx and tx.status == 1)`. -/
def txSuccess (r : Except String (Option TxReceipt)) : Bool :=
  match r with
  | Except.ok (some tx) => tx.status == 1
  | _ => false

/-- A state-mutating method of a client generated from `client.py.j2`:
returns the success flag and the resulting observable state. -/
def clientCallTx (r : Except String (Option TxReceipt))
    (hasCollector hasSim : Bool) (st : ClientState) : Bool × ClientState :=
  match r with
  | Except.error _ => (false, st)
  | Except.ok none => (false, st)
  | Except.ok (some tx) =>
      if tx.status == 1 then
        let st1 := if hasCollector then
          { st with recordedEvents := st.recordedEvents ++ [tx] } else st
        let st2 := if hasSim then
          { st1 with simUpdates := st1.simUpdates ++ [tx] } else st1
        (true, st2)
      else (false, st)

/-- A state-mutating method of a client generated from
`generic_client.py.j2`: identical, except that a failed `get_contract`
lookup returns `False` before any submission. -/
def genericClientCallTx (contractFound : Bool)
    (r : Except String (Option TxReceipt))
    (hasCollector hasSim : Bool) (st : ClientState) : Bool × ClientState :=
  if contractFound then clientCallTx r hasCollector hasSim st else (false, st)

/-- A view method generated from `client.py.j2`: the contract call's value on
success, `None` when the call raises. -/
def clientViewCall {α : Type} (r : Except String α) : Option α :=
  match r with
  | Except.ok v => some v
  | Except.error _ => none

/-- A view method generated from `generic_client.py.j2`: additionally returns
`None` when the contract lookup fails. -/
def genericClientViewCall {α : Type} (contractFound : Bool)
    (r : Except String α) : Option α :=
  if contractFound then clientViewCall r else none

/-- C4: a generated state-mutating client method records events and updates
simulation state only on success; on any failed outcome it performs neither
and returns `false`, and on success the recording/update happen exactly when
a collector / simulation context is attached. -/
theorem c4_state_update_only_on_success (r : Except String (Option TxReceipt))
    (hasCollector hasSim : Bool) (st : ClientState)
    (hfail : txSuccess r = false) :
    clientCallTx r hasCollector hasSim st = (false, st)
    ∧ ∀ contractFound,
        genericClientCallTx contractFound r hasCollector hasSim st = (false, st) := by
  have hmain : clientCallTx r hasCollector hasSim st = (false, st) := by
    cases r with
    | error e => rfl
    | ok txo =>
        cases txo with
        | none => rfl
        | some tx =>
            have hts : (tx.status == 1) = false := by
              simpa [txSuccess] using hfail
            simp [clientCallTx, hts]
  refine ⟨hmain, ?_⟩
  intro contractFound
  cases contractFound <;> simp [genericClientCallTx, hmain]

/-- Witness for C4 at a reverted transaction (status 0). -/
theorem c4_state_update_only_on_success_witness :
    clientCallTx (Except.ok (some ⟨0⟩)) true true ⟨[], []⟩ = (false, ⟨[], []⟩)
    ∧ genericClientCallTx true (Except.ok (some ⟨0⟩)) true true ⟨[], []⟩
        = (false, ⟨[], []⟩) := by
  have h := c4_state_update_only_on_success (Except.ok (some ⟨0⟩)) true true
    ⟨[], []⟩ (by decide)
  exact ⟨h.1, h.2 true⟩

/-- C5: an exception raised by the underlying contract call never escapes a
generated client method: a state-mutating call returns `false` (leaving the
observable state unchanged) and a view call returns `None`, for both client
templates. -/
theorem c5_transport_error_is_failed_outcome {α : Type} (e : String)
    (hasCollector hasSim : Bool) (st : ClientState) (contractFound : Bool) :
    clientCallTx (Except.error e) hasCollector hasSim st = (false, st)
    ∧ genericClientCallTx contractFound (Except.error e) hasCollector hasSim st
        = (false, st)
    ∧ clientViewCall (Except.error e : Except String α) = none
    ∧ genericClientViewCall contractFound (Except.error e : Except String α)
        = none := by
  refine ⟨rfl, ?_, rfl, ?_⟩
  · cases contractFound <;> rfl
  · cases contractFound <;> rfl

/-! ## `active_trusts` view (`active_trusts.view.sql`)

The view joins `trusts` with the per-(run, truster, trustee) maximum of
`trust_timestamp` and keeps rows with `expiry_time > CURRENT_TIMESTAMP`. -/

/-- A row of the `trusts` table. -/
structure TrustRow where
  simRunId : ℕ
  truster : String
  trustee : String
  trustTimestamp : ℤ
  expiryTime : ℤ
deriving DecidableEq

/-- The grouping key of the inner `GROUP BY`. -/
def sameTrustKey (a b : TrustRow) : Bool :=
  decide (a.simRunId = b.simRunId ∧ a.truster = b.truster
    ∧ a.trustee = b.trustee)

/-- Whether `t.trust_timestamp` equals the group's `MAX(trust_timestamp)`,
i.e. no row of the same key is newer. -/
def isLatestIn (rows : List TrustRow) (t : TrustRow) : Bool :=
  rows.all (fun u => !(sameTrustKey u t) || decide (u.trustTimestamp ≤ t.trustTimestamp))

/-- The `active_trusts` view over table contents `rows` evaluated at time
`now` (`CURRENT_TIMESTAMP`). -/
def activeTrusts (rows : List TrustRow) (now : ℤ) : List TrustRow :=
  rows.filter (fun t => isLatestIn rows t && decide (now < t.expiryTime))

/-- C6: a trust record that is the most recent one for its
(run, truster, trustee) key appears in `active_trusts` iff its expiry is
strictly greater than the current time; and no row of the view ever has
`expiry ≤ current_time`. -/
theorem c6_active_trust_iff_unexpired (rows : List TrustRow) (now : ℤ)
    (t : TrustRow) (hmem : t ∈ rows)
    (hlatest : ∀ u ∈ rows, sameTrustKey u t = true →
      u.trustTimestamp ≤ t.trustTimestamp) :
    (t ∈ activeTrusts rows now ↔ now < t.expiryTime)
    ∧ ∀ u ∈ activeTrusts rows now, now < u.expiryTime := by
  have hlat : isLatestIn rows t = true := by
    unfold isLatestIn
    rw [List.all_eq_true]
    intro u hu
    by_cases hk : sameTrustKey u t = true
    · simp [hk, hlatest u hu hk]
    · simp [Bool.not_eq_true] at hk
      simp [hk]
  constructor
  · constructor
    · intro hin
      have := (List.mem_filter.mp hin).2
      simp only [Bool.and_eq_true, decide_eq_true_eq] at this
      exact this.2
    · intro hexp
      refine List.mem_filter.mpr ⟨hmem, ?_⟩
      simp [hlat, hexp]
  · intro u hu
    have := (List.mem_filter.mp hu).2
    simp only [Bool.and_eq_true, decide_eq_true_eq] at this
    exact this.2

/-- Witness for C6: a single trust record expiring at time 10, checked at
time 3. -/
theorem c6_active_trust_iff_unexpired_witness :
    (TrustRow.mk 1 "a" "b" 5 10 ∈
        activeTrusts [TrustRow.mk 1 "a" "b" 5 10] 3 ↔ (3 : ℤ) < 10)
    ∧ ∀ u ∈ activeTrusts [TrustRow.mk 1 "a" "b" 5 10] 3,
        (3 : ℤ) < u.expiryTime := by
  exact c6_active_trust_iff_unexpired [TrustRow.mk 1 "a" "b" 5 10] 3
    (TrustRow.mk 1 "a" "b" 5 10) (by simp)
    (by intro u hu _; simp at hu; subst hu; rfl)

/-! ## Generated action implementations and handlers

`get_calls` (implementation template):

```text
sender = self.get_sender(context)
if not sender: return []
client = context.get_client(name)
if not client: return []
constraints = context.agent.profile.get_action_config(name).constraints
return [ContractCall(client_name=name, method=func, params={
    'sender': sender, 'value': 0, inp: constraints.get(inp), ...})]
```

`execute` (handler template `handler.py.j2`):

```text
try:
    execution_params = params if params else self.strategy.get_params(context)
    if not execution_params: return False
    function_args = {...}
    return self.client.f(**function_args)
except Exception:
    return False
```

Strategy parameter generation and the client call may raise; both are
embedded as `Except`. A `params` argument that is `None` or an empty dict is
falsy and falls back to the strategy. -/

/-- An operation request produced by an action implementation. -/
structure ContractCall where
  clientName : String
  method : String
  callParams : List (String × Option PyVal)
deriving DecidableEq

/-- Embedding of `get_calls` of a generated implementation: `sender` is the resolved
sender account (`None` when the agent has no account), `client` the looked-up
execution client. -/
def getCalls (sender : Option String) (client : Option String)
    (constraints : PyDict PyVal) (clientName method : String)
    (inputNames : List String) : List ContractCall :=
  match sender with
  | none => []
  | some s =>
      match client with
      | none => []
      | some _ =>
          [{ clientName := clientName, method := method,
             callParams := ("sender", some (PyVal.vStr s))
               :: ("value", some (PyVal.vInt 0))
               :: inputNames.map (fun n => (n, pyLookup constraints n)) }]

/-- The value `execution_params` of the handler's `execute`: the caller-supplied
params when truthy, otherwise the strategy's generated params (which may
raise). -/
def resolvedParams (params : Option (PyDict PyVal))
    (strategyParams : Except String (PyDict PyVal)) :
    Except String (PyDict PyVal) :=
  match params with
  | some d => if d.isEmpty then strategyParams else Except.ok d
  | none => strategyParams

/-- The handler's `execute`: every exception from parameter generation or
the client call is caught and turned into `False`; an empty resolved
parameter set returns `False` before any client call. -/
def executeHandler (params : Option (PyDict PyVal))
    (strategyParams : Except String (PyDict PyVal))
    (clientCall : PyDict PyVal → Except String Bool) : Bool :=
  match resolvedParams params strategyParams with
  | Except.error _ => false
  | Except.ok d =>
      if d.isEmpty then false
      else
        match clientCall d with
        | Except.ok b => b
        | Except.error _ => false

/-- C7: when parameter resolution yields nothing — no sender account, no
available client, or an empty resolved parameter set — the implementation
produces no operation requests and the handler's `execute` returns `false`;
no error is raised in either case. -/
theorem c7_no_params_silently_dropped :
    (∀ client constraints clientName method inputNames,
      getCalls none client constraints clientName method inputNames = [])
    ∧ (∀ s constraints clientName method inputNames,
      getCalls (some s) none constraints clientName method inputNames = [])
    ∧ (∀ clientCall, executeHandler none (Except.ok []) clientCall = false)
    ∧ (∀ clientCall sp,
      executeHandler (some []) (Except.ok sp) clientCall
        = executeHandler none (Except.ok sp) clientCall)
    ∧ (∀ clientCall, executeHandler (some []) (Except.ok []) clientCall = false) := by
  refine ⟨fun _ _ _ _ _ => rfl, fun _ _ _ _ _ => rfl, fun _ => rfl,
    fun _ _ => ?_, fun _ => rfl⟩
  rfl

/-- C10: the handler's `execute` is total with respect to exceptions — an
exception raised while generating parameters (when the strategy is
consulted) or by the client call yields `false` rather than propagating, and
an empty resolved parameter set yields `false`. -/
theorem c10_execute_total (params : Option (PyDict PyVal))
    (strategyParams : Except String (PyDict PyVal))
    (clientCall : PyDict PyVal → Except String Bool) :
    ((params = none ∨ params = some []) → ∀ e,
      strategyParams = Except.error e →
      executeHandler params strategyParams clientCall = false)
    ∧ (∀ d, resolvedParams params strategyParams = Except.ok d → d.isEmpty →
      executeHandler params strategyParams clientCall = false)
    ∧ (∀ d, resolvedParams params strategyParams = Except.ok d →
      (∀ e, clientCall d = Except.error e →
        executeHandler params strategyParams clientCall = false)) := by
  refine ⟨?_, ?_, ?_⟩
  · rintro (h | h) e he <;> subst h <;>
      simp [executeHandler, resolvedParams, he]
  · intro d hd hempty
    simp [executeHandler, hd, hempty]
  · intro d hd e he
    by_cases hempty : d.isEmpty
    · simp [executeHandler, hd, hempty]
    · simp [executeHandler, hd, hempty, he]

/-- Witness for C10: a raising strategy, an empty resolution, and a raising
client call each yield `false`. -/
theorem c10_execute_total_witness :
    executeHandler none (Except.error "rpc down")
        (fun _ => Except.ok true) = false
    ∧ executeHandler none (Except.ok []) (fun _ => Except.ok true) = false
    ∧ executeHandler (some [("sender", PyVal.vStr "0xa")])
        (Except.ok []) (fun _ => Except.error "revert") = false := by
  refine ⟨?_, ?_, ?_⟩
  · exact (c10_execute_total none (Except.error "rpc down")
      (fun _ => Except.ok true)).1 (Or.inl rfl) "rpc down" rfl
  · exact (c10_execute_total none (Except.ok [])
      (fun _ => Except.ok true)).2.1 [] rfl rfl
  · exact (c10_execute_total (some [("sender", PyVal.vStr "0xa")])
      (Except.ok []) (fun _ => Except.error "revert")).2.2
      [("sender", PyVal.vStr "0xa")] rfl "revert" rfl
